import Mathlib

/-!
Shallow embedding of the batched Firehose delivery stream
(`internal/infra/server/gn_logger/firehose_log_stream.go`, and the identical
flush logic of the `my_logger` variant) and of the level-name handling of
`internal/infra/server/gn_logger/logger.go`.

Records are byte payloads (`types.Record.Data`); the buffer is the ordered
list `recordsBuff`; the Firehose client is a parameter (`Sink`) returning
either a transport-level error or a per-record outcome list, mirroring the
`FirehoseClient` interface.  The Go `for` loop that trims an over-sized batch
is embedded as a fuel-indexed recursion (`trimLoop`); `trimLoop_run` shows the
fuel used by `send` always suffices, so the embedding denotes the Go loop.
-/

namespace GnLogger

/-- Firehose hard limit per record: `MAX_LOG_BYTE_LENGTH = 1000 * 1024`. -/
def MAX_LOG_BYTE_LENGTH : Nat := 1000 * 1024

/-- Firehose hard limit per batch: `MAX_RECORDS_BYTE_LENGTH = 4 * 1024 * 1024`. -/
def MAX_RECORDS_BYTE_LENGTH : Nat := 4 * 1024 * 1024

/-- Default record-count limit per batch: `MAX_RECORD_BATCH_SIZE = 500`. -/
def MAX_RECORD_BATCH_SIZE : Nat := 500

/-- One Firehose record: `types.Record{Data: []byte}`; each byte is a `Nat`. -/
structure Record where
  data : List Nat
deriving DecidableEq

/-- Byte length of a record: `len(r.Data)`. -/
def recSize (r : Record) : Nat := r.data.length

/-- Running byte total of a record list, as the Go `int` accumulator
`recordsByteLength`. -/
def intSum (l : List Record) : Int := (l.map fun r => (recSize r : Int)).sum

/-- Outcome of one `PutRecordBatch` call: either the call itself errors
(transport level), or it returns `FailedPutCount` and `RequestResponses`
(`true` = that record's `ErrorCode != nil`). -/
inductive PutResult where
  | transportError
  | ok (failedPutCount : Nat) (responses : List Bool)

/-- The Firehose client as seen by `send`: batch in, `PutRecordBatch` outcome
out (the `FirehoseClient` interface, which exists to allow mocking). -/
abbrev Sink := List Record → PutResult

/-- Result of the Go byte-trimming loop in `send` (lines 152-162): either the
candidate list once `recordsByteLength <= MAX_RECORDS_BYTE_LENGTH`, or the
degenerate `len(records) == 0` early `return 0`. -/
inductive TrimResult where
  | fits (records : List Record)
  | degenerate
deriving DecidableEq

/-- The trimming loop of `send`, embedded with fuel (the Go loop is unbounded;
`trimLoop_run` proves the fuel `send` passes always suffices):
while `recordsByteLength > MAX_RECORDS_BYTE_LENGTH`, pop the last record,
insert it at index 0 of `records` (exactly `slices.Insert(records, 0, lastRecord)`
— note: the front of the candidate list, not of `recordsBuff`), and subtract
its length from the running total. -/
def trimLoop : Nat → List Record → Int → Option TrimResult
  | 0, _, _ => none
  | fuel + 1, records, byteLen =>
    if byteLen ≤ (MAX_RECORDS_BYTE_LENGTH : Int) then some (TrimResult.fits records)
    else
      match records.getLast? with
      | none => some TrimResult.degenerate
      | some lastRecord =>
          trimLoop fuel (lastRecord :: records.dropLast) (byteLen - (recSize lastRecord : Int))

/-- The drain step of `send` (lines 138-142): a prefix of up to
`maxBatchSize` records, or the whole buffer when it is smaller. -/
def drainCandidate (maxBatchSize : Nat) (buff : List Record) : List Record :=
  if buff.length ≥ maxBatchSize then buff.take maxBatchSize else buff

/-- Records the sink marked failed (lines 182-187): for each response with
`ErrorCode != nil`, the record at the same index of the sent list, in order. -/
def failedOf (records : List Record) (responses : List Bool) : List Record :=
  ((records.zip responses).filter fun p => p.2).map fun p => p.1

/-- What one `send` call produces: the buffer afterwards, the returned `int`,
and the batch handed to `PutRecordBatch` (`none` when no call was issued). -/
structure SendResult where
  buff : List Record
  sent : Int
  submitted : Option (List Record)
deriving DecidableEq

/-- `FirehoseLogStream.send` (lines 127-192), one call, the mutex held
throughout the critical section: early return on an empty buffer; drain a
candidate prefix; truncate the buffer; trim by bytes; call the sink;
on transport error append the whole sent list back to the buffer and return 0;
on `FailedPutCount == 0` return `len(records)`; otherwise append exactly the
failed records back and return `len(records) - FailedPutCount`. -/
def send (sink : Sink) (maxBatchSize : Nat) (buff : List Record) : SendResult :=
  if buff.length = 0 then ⟨buff, 0, none⟩
  else
    let records := drainCandidate maxBatchSize buff
    let buff1 := buff.drop records.length
    match trimLoop (records.length + 1) records (intSum records) with
    | none => ⟨buff1, 0, none⟩
    | some TrimResult.degenerate => ⟨buff1, 0, none⟩
    | some (TrimResult.fits records2) =>
      match sink records2 with
      | PutResult.transportError => ⟨buff1 ++ records2, 0, some records2⟩
      | PutResult.ok failedPutCount responses =>
        if failedPutCount = 0 then ⟨buff1, (records2.length : Int), some records2⟩
        else
          ⟨buff1 ++ failedOf records2 responses,
            (records2.length : Int) - (failedPutCount : Int), some records2⟩

/-- What `FirehoseLogStream.Write` returns and does to the buffer
(lines 80-89 plus the listener's append at line 112): an oversized payload is
reported accepted in full but never buffered; otherwise a record with a clone
of the bytes joins the tail of the buffer.  `err` is the returned `error`. -/
structure WriteResult where
  n : Nat
  err : Option String
  buff : List Record

/-- `FirehoseLogStream.Write` (the buffer append of the accepted record
included, as performed by `listenRecordStream`). -/
def write (logBytes : List Nat) (buff : List Record) : WriteResult :=
  if logBytes.length > MAX_LOG_BYTE_LENGTH then ⟨logBytes.length, none, buff⟩
  else ⟨logBytes.length, none, buff ++ [⟨logBytes⟩]⟩

/-- Stream state with its `sync.Mutex` made explicit: Go's `sync.Mutex` is not
reentrant, so acquiring it while it is held blocks the goroutine. -/
structure MState where
  locked : Bool
  buff : List Record
deriving DecidableEq

/-- `f.mu.Lock()`: `none` models the caller blocking forever because the
mutex is already held (with the ticker stopped and the record stream closed,
nobody else will release it). -/
def mLock (s : MState) : Option MState :=
  if s.locked then none else some ⟨true, s.buff⟩

/-- `send` as actually invoked: it first takes the mutex (line 128) and
releases it when done. -/
def sendLocked (sink : Sink) (maxBatchSize : Nat) (s : MState) : Option (MState × Int) :=
  match mLock s with
  | none => none
  | some s1 =>
      let r := send sink maxBatchSize s1.buff
      some (⟨false, r.buff⟩, r.sent)

/-- The drain loop of `Close` (lines 98-100): `for len(f.recordsBuff) > 0 { f.send() }`,
run while `Close` still holds the mutex; fuel bounds the number of
iterations observed. -/
def closeLoop (sink : Sink) (maxBatchSize : Nat) : Nat → MState → Option MState
  | 0, _ => none
  | fuel + 1, s =>
    if s.buff.length > 0 then
      match sendLocked sink maxBatchSize s with
      | none => none
      | some (s1, _) => closeLoop sink maxBatchSize fuel s1
    else some s

/-- `FirehoseLogStream.Close` (lines 91-103): take the mutex (held for the
whole call via `defer`), stop the ticker, drain in a loop, return `nil`.
The result is `none` when the call blocks (deadlock or fuel exhausted);
otherwise the final state and the returned `error`. -/
def closeStream (sink : Sink) (maxBatchSize : Nat) (fuel : Nat) (s : MState) :
    Option (MState × Option String) :=
  match mLock s with
  | none => none
  | some s1 =>
    match closeLoop sink maxBatchSize fuel s1 with
    | none => none
    | some s2 => some (⟨false, s2.buff⟩, none)

/-- A sink that always accepts the whole batch (`FailedPutCount = 0`). -/
def successSink : Sink := fun _ => PutResult.ok 0 []

/-- A sink whose call itself always errors (network/auth failure). -/
def transportSink : Sink := fun _ => PutResult.transportError

/-- A record of `n` zero bytes. -/
def recN (n : Nat) : Record := ⟨List.replicate n 0⟩

/-- One-byte record `[0]`. -/
def recA : Record := ⟨[0]⟩

/-- One-byte record `[1]`. -/
def recB : Record := ⟨[1]⟩

/- ## Level names (`logger.go`) -/

/-- `const levelTrace = slog.Level(-8)`. -/
def levelTrace : Int := -8

/-- `const levelFatal = slog.Level(12)`. -/
def levelFatal : Int := 12

/-- `const levelCritical = slog.Level(16)`. -/
def levelCritical : Int := 16

/-- The `levelNames` map of `logger.go` (lines 30-34). -/
def levelNames (l : Int) : Option String :=
  if l = levelTrace then some "TRACE"
  else if l = levelFatal then some "FATAL"
  else if l = levelCritical then some "CRITICAL"
  else none

/-- `getSlogLevel` (lines 84-103): level name to `slog.Level`; standard slog
levels are Debug = -4, Info = 0, Warn = 4, Error = 8. -/
def getSlogLevel (optLevel : String) : Except String Int :=
  match optLevel with
  | "trace" => Except.ok levelTrace
  | "debug" => Except.ok (-4)
  | "info" => Except.ok 0
  | "warn" => Except.ok 4
  | "error" => Except.ok 8
  | "critical" => Except.ok levelFatal
  | "fatal" => Except.ok levelCritical
  | _ => Except.error "unknown level"

/-- Go stdlib `slog.Level.String()` (used by `replaceCustomLevelNames` only
for levels outside the custom map): base label plus a `%+d`-formatted offset. -/
def levelStr (base : String) (v : Int) : String :=
  if v = 0 then base else base ++ (if 0 ≤ v then "+" ++ toString v else toString v)

/-- Go stdlib `slog.Level.String()`. -/
def slogLevelString (l : Int) : String :=
  if l < 0 then levelStr "DEBUG" (l + 4)
  else if l < 4 then levelStr "INFO" l
  else if l < 8 then levelStr "WARN" (l - 4)
  else levelStr "ERROR" (l - 8)

/-- `replaceCustomLevelNames` applied to the level attribute (lines 105-116):
the custom label when the map has one, else `slog.Level.String()`. -/
def levelLabel (l : Int) : String :=
  match levelNames l with
  | some s => s
  | none => slogLevelString l

/-- The part of a `Logger` that decides emission and labels: the handler's
minimum level (`HandlerOptions.Level`, set from `opts.Level` in `NewLogger`). -/
structure Logger where
  minLevel : Int
deriving DecidableEq

/-- `NewLogger` restricted to the level handling (lines 36-44): fails exactly
when `getSlogLevel` fails. -/
def newLogger (optLevel : String) : Except String Logger :=
  (getSlogLevel optLevel).map fun lv => ⟨lv⟩

/-- One `Logger.Log` call (lines 133-144) through the slog JSON handler: the
handler emits a record iff the record's level is at least the handler's
minimum; an emitted record's level label passes through
`replaceCustomLevelNames`.  `ok none` = call succeeded but the record was
suppressed by the handler's level filter. -/
def logCall (lg : Logger) (level : String) : Except String (Option String) :=
  (getSlogLevel level).map fun lv =>
    if lg.minLevel ≤ lv then some (levelLabel lv) else none

end GnLogger

namespace GnLogger

theorem trimLoop_succ (fuel : Nat) (records : List Record) (byteLen : Int) :
    trimLoop (fuel + 1) records byteLen =
      if byteLen ≤ (MAX_RECORDS_BYTE_LENGTH : Int) then some (TrimResult.fits records)
      else
        match records.getLast? with
        | none => some TrimResult.degenerate
        | some lastRecord =>
            trimLoop fuel (lastRecord :: records.dropLast) (byteLen - (recSize lastRecord : Int)) :=
  rfl

theorem intSum_nil : intSum [] = 0 := rfl

theorem intSum_concat (l : List Record) (a : Record) :
    intSum (l ++ [a]) = intSum l + (recSize a : Int) := by
  simp [intSum]

theorem intSum_nonneg (l : List Record) : 0 ≤ intSum l := by
  induction l with
  | nil => simp [intSum]
  | cons a t ih =>
      have : intSum (a :: t) = (recSize a : Int) + intSum t := by simp [intSum]
      rw [this]
      positivity

/-- The byte-trimming loop of `send`, started as `send` starts it (running
total = byte size of the candidate list), finishes within `length + 1`
checks of the loop condition, and the list it hands on is a permutation of
the candidate list: `slices.Insert(records, 0, lastRecord)` puts the popped
record back into the candidate list itself, so the loop only rotates it. -/
theorem trimLoop_run (post : List Record) : ∀ pre : List Record,
    ∃ l : List Record,
      trimLoop (post.length + 1) (pre ++ post) (intSum post) =
        some (TrimResult.fits l) ∧ l.Perm (pre ++ post) := by
  induction post using List.reverseRecOn with
  | nil =>
      intro pre
      refine ⟨pre ++ [], ?_, List.Perm.refl _⟩
      rw [trimLoop_succ, if_pos]
      rw [intSum_nil]
      positivity
  | append_singleton l a ih =>
      intro pre
      rw [trimLoop_succ]
      by_cases h : intSum (l ++ [a]) ≤ (MAX_RECORDS_BYTE_LENGTH : Int)
      · rw [if_pos h]
        exact ⟨pre ++ (l ++ [a]), rfl, List.Perm.refl _⟩
      · rw [if_neg h, ← List.append_assoc]
        simp only [List.getLast?_concat, List.dropLast_concat]
        have hlen : (l ++ [a]).length = l.length + 1 := by simp
        have hsum : intSum (l ++ [a]) - (recSize a : Int) = intSum l := by
          rw [intSum_concat]; ring
        rw [hlen, hsum]
        obtain ⟨l2, h2, hperm⟩ := ih (a :: pre)
        refine ⟨l2, ?_, ?_⟩
        · simpa using h2
        · refine hperm.trans ?_
          have : ((a :: pre) ++ l).Perm ((pre ++ l) ++ [a]) := by
            simpa using (List.perm_append_singleton a (pre ++ l)).symm
          refine this.trans ?_
          rw [List.append_assoc]

/-- Entry form of `trimLoop_run`: from `send`'s entry state, the loop
terminates within the fuel `send` supplies and yields a rotation of the
candidate list. -/
theorem trimLoop_entry (records : List Record) :
    ∃ l : List Record,
      trimLoop (records.length + 1) records (intSum records) =
        some (TrimResult.fits l) ∧ l.Perm records := by
  simpa using trimLoop_run records []

end GnLogger

namespace GnLogger

theorem drainCandidate_length (maxBatchSize : Nat) (buff : List Record) :
    (drainCandidate maxBatchSize buff).length = min maxBatchSize buff.length := by
  unfold drainCandidate
  split
  · simp
  · omega

theorem drainCandidate_mem {maxBatchSize : Nat} {buff : List Record} {r : Record}
    (h : r ∈ drainCandidate maxBatchSize buff) : r ∈ buff := by
  unfold drainCandidate at h
  split at h
  · exact List.mem_of_mem_take h
  · exact h

theorem drainCandidate_of_le {maxBatchSize : Nat} {buff : List Record}
    (hlen : buff.length ≤ maxBatchSize) : drainCandidate maxBatchSize buff = buff := by
  unfold drainCandidate
  split
  · exact List.take_of_length_le hlen
  · rfl

/-- One `send` call on a non-empty buffer, written out: the batch handed to
the sink is the (rotated) trim of the drained prefix, and each sink outcome
determines the new buffer and the returned count exactly as lines 164-191 do. -/
theorem send_master (sink : Sink) (maxBatchSize : Nat) (buff : List Record)
    (hne : buff ≠ []) :
    ∃ l : List Record,
      l.Perm (drainCandidate maxBatchSize buff) ∧
      send sink maxBatchSize buff =
        (match sink l with
         | PutResult.transportError =>
             ⟨buff.drop (drainCandidate maxBatchSize buff).length ++ l, 0, some l⟩
         | PutResult.ok failedPutCount responses =>
             if failedPutCount = 0 then
               ⟨buff.drop (drainCandidate maxBatchSize buff).length, (l.length : Int), some l⟩
             else
               ⟨buff.drop (drainCandidate maxBatchSize buff).length ++ failedOf l responses,
                 (l.length : Int) - (failedPutCount : Int), some l⟩) := by
  obtain ⟨l, hl, hperm⟩ := trimLoop_entry (drainCandidate maxBatchSize buff)
  refine ⟨l, hperm, ?_⟩
  have hlen0 : ¬ buff.length = 0 := fun h => hne (List.length_eq_zero.mp h)
  unfold send
  rw [if_neg hlen0]
  simp only [hl]

/-- A whole buffer that fits both ceilings is delivered in one successful
flush: everything is sent, nothing is requeued. -/
theorem send_success_all (maxBatchSize : Nat) (buff : List Record) (hne : buff ≠ [])
    (hlen : buff.length ≤ maxBatchSize)
    (hfit : intSum buff ≤ (MAX_RECORDS_BYTE_LENGTH : Int)) :
    send successSink maxBatchSize buff = ⟨[], (buff.length : Int), some buff⟩ := by
  have hdc : drainCandidate maxBatchSize buff = buff := drainCandidate_of_le hlen
  have hfits : trimLoop (buff.length + 1) buff (intSum buff) =
      some (TrimResult.fits buff) := by
    rw [trimLoop_succ, if_pos hfit]
  have hlen0 : ¬ buff.length = 0 := fun h => hne (List.length_eq_zero.mp h)
  unfold send
  rw [if_neg hlen0]
  simp only [hdc, hfits, successSink]
  simp [List.drop_length]

/-- When the sink returns, its reported error is `nil`: `closeStream` never
produces a non-`nil` Go error (line 102 is `return nil`). -/
theorem closeStream_err_none (sink : Sink) (maxBatchSize fuel : Nat) (s : MState)
    (p : MState × Option String) (h : closeStream sink maxBatchSize fuel s = some p) :
    p.2 = none := by
  unfold closeStream at h
  split at h
  · exact Option.noConfusion h
  · split at h
    · exact Option.noConfusion h
    · cases h
      rfl

end GnLogger

namespace GnLogger

/-- C9: calling the flush operation on an empty buffer is a no-op: it returns
0 records sent, issues no `PutRecordBatch` call, and leaves the buffer
unchanged, whatever the sink and the configured batch size. -/
theorem c9_send_empty_buffer_noop (sink : Sink) (maxBatchSize : Nat) :
    send sink maxBatchSize [] = ⟨[], 0, none⟩ := by
  simp [send]

/-- C4 (code bug): with even a single buffered record, `Close` never returns:
it takes the stream mutex and, still holding it, calls `send`, which blocks
acquiring the same non-reentrant mutex — for every sink behaviour, batch size
and number of observed steps, the call is stuck. -/
theorem c4_close_self_deadlocks (sink : Sink) (maxBatchSize fuel : Nat) :
    closeStream sink maxBatchSize fuel ⟨false, [recN 1]⟩ = none := by
  cases fuel with
  | zero => rfl
  | succ n => rfl

/-- C8: for a non-empty drained candidate set whose records all obey the
per-record ceiling (itself strictly below the batch ceiling), the byte
trimming loop terminates without reducing the candidate set to empty: the
degenerate `len(records) == 0` branch is unreachable. -/
theorem c8_trim_never_empties_candidate (records : List Record)
    (hne : records ≠ [])
    (_hrec : ∀ r ∈ records, recSize r ≤ MAX_LOG_BYTE_LENGTH) :
    MAX_LOG_BYTE_LENGTH < MAX_RECORDS_BYTE_LENGTH ∧
    ∃ l : List Record,
      trimLoop (records.length + 1) records (intSum records) =
        some (TrimResult.fits l) ∧ l ≠ [] ∧ l.length = records.length := by
  refine ⟨by decide, ?_⟩
  obtain ⟨l, hl, hperm⟩ := trimLoop_entry records
  refine ⟨l, hl, ?_, hperm.length_eq⟩
  intro h
  apply hne
  have hlen := hperm.length_eq
  rw [h] at hlen
  exact List.length_eq_zero.mp hlen.symm

/-- Witness for `c8_trim_never_empties_candidate` at the one-record
candidate set `[recA]`. -/
theorem c8_trim_witness :
    MAX_LOG_BYTE_LENGTH < MAX_RECORDS_BYTE_LENGTH ∧
    ∃ l : List Record,
      trimLoop ([recA].length + 1) [recA] (intSum [recA]) =
        some (TrimResult.fits l) ∧ l ≠ [] ∧ l.length = [recA].length :=
  c8_trim_never_empties_candidate [recA] (by simp) (by decide)

theorem recSize_recN (n : Nat) : recSize (recN n) = n := by
  simp only [recSize, recN, List.length_replicate]

theorem intSum_replicate (n m : Nat) :
    intSum (List.replicate n (recN m)) = (n : Int) * (m : Int) := by
  simp only [intSum, List.map_replicate, List.sum_replicate, recSize_recN, nsmul_eq_mul]

/-- C1 (code bug): a buffer of two records, each of 2097153 bytes (just over
half the 4194304-byte batch ceiling), is delivered whole by a single flush —
the sink receives one batch holding both records and the buffer is left
empty — because the trimming loop re-inserts the popped record into the
candidate list itself (`slices.Insert(records, 0, lastRecord)`) instead of
pushing it back onto `recordsBuff` as its own comment says. -/
theorem c1_oversized_pair_sent_together :
    send successSink 500 (List.replicate 2 (recN 2097153)) =
      ⟨[], 2, some (List.replicate 2 (recN 2097153))⟩ ∧
    intSum (List.replicate 2 (recN 2097153)) = 4194306 ∧
    (4194306 : Int) > (MAX_RECORDS_BYTE_LENGTH : Int) := by
  have hsum : intSum (List.replicate 2 (recN 2097153)) = 4194306 := by
    rw [intSum_replicate]; norm_num
  refine ⟨?_, hsum, by decide⟩
  obtain ⟨l, hperm, heq⟩ :=
    send_master successSink 500 (List.replicate 2 (recN 2097153)) (by simp)
  have hdc : drainCandidate 500 (List.replicate 2 (recN 2097153)) =
      List.replicate 2 (recN 2097153) := drainCandidate_of_le (by simp)
  rw [hdc] at hperm heq
  have hl : l = List.replicate 2 (recN 2097153) := List.perm_replicate.mp hperm
  subst hl
  rw [heq]
  simp [successSink, List.drop_length]

/-- C3 (code bug): a buffer of five records of 1000000 bytes each — every one
within the per-record ceiling, so the state is reachable through `Write` —
is submitted to the sink as a single batch of 5000000 bytes, above the
4194304-byte batch ceiling, because the trimming loop only rotates the
candidate list instead of shrinking it. -/
theorem c3_byte_ceiling_violated :
    (send successSink 500 (List.replicate 5 (recN 1000000))).submitted =
      some (List.replicate 5 (recN 1000000)) ∧
    (send successSink 500 (List.replicate 5 (recN 1000000))).sent = 5 ∧
    (send successSink 500 (List.replicate 5 (recN 1000000))).buff = [] ∧
    intSum (List.replicate 5 (recN 1000000)) = 5000000 ∧
    (5000000 : Int) > (MAX_RECORDS_BYTE_LENGTH : Int) ∧
    (∀ r ∈ List.replicate 5 (recN 1000000), recSize r ≤ MAX_LOG_BYTE_LENGTH) ∧
    (List.replicate 5 (recN 1000000)).length ≤ MAX_RECORD_BATCH_SIZE := by
  have hsum : intSum (List.replicate 5 (recN 1000000)) = 5000000 := by
    rw [intSum_replicate]; norm_num
  obtain ⟨l, hperm, heq⟩ :=
    send_master successSink 500 (List.replicate 5 (recN 1000000)) (by simp)
  have hdc : drainCandidate 500 (List.replicate 5 (recN 1000000)) =
      List.replicate 5 (recN 1000000) := drainCandidate_of_le (by simp)
  rw [hdc] at hperm heq
  have hl : l = List.replicate 5 (recN 1000000) := List.perm_replicate.mp hperm
  subst hl
  rw [heq]
  refine ⟨by simp [successSink], by simp [successSink], ?_, hsum, by decide, ?_, ?_⟩
  · simp [successSink, List.drop_length]
  · intro r hr
    rw [List.eq_of_mem_replicate hr, recSize_recN]
    decide
  · simp [MAX_RECORD_BATCH_SIZE]

end GnLogger

namespace GnLogger

/-- Every batch `send` hands to the sink is a permutation of the drained
prefix of the buffer; in particular its records all come from the buffer. -/
theorem send_submitted_perm {sink : Sink} {maxBatchSize : Nat}
    {buff batch : List Record}
    (h : (send sink maxBatchSize buff).submitted = some batch) :
    batch.Perm (drainCandidate maxBatchSize buff) := by
  by_cases hb : buff = []
  · subst hb
    simp [send] at h
  · obtain ⟨l, hperm, heq⟩ := send_master sink maxBatchSize buff hb
    rw [heq] at h
    cases hs : sink l with
    | transportError =>
        rw [hs] at h
        simp only at h
        rw [← Option.some.inj h]
        exact hperm
    | ok failedPutCount responses =>
        rw [hs] at h
        simp only at h
        by_cases hc : failedPutCount = 0
        · rw [if_pos hc] at h
          rw [← Option.some.inj h]
          exact hperm
        · rw [if_neg hc] at h
          rw [← Option.some.inj h]
          exact hperm

/-- C7: `Write` reports the full payload length and a `nil` error for every
payload; an oversized payload leaves the buffer untouched, and every record
of every batch handed to the sink comes from the buffer, so a payload that
was never buffered never appears in a delivered batch. -/
theorem c7_write_full_length_oversized_dropped (logBytes : List Nat)
    (buff : List Record) :
    (write logBytes buff).n = logBytes.length ∧
    (write logBytes buff).err = none ∧
    (logBytes.length > MAX_LOG_BYTE_LENGTH → (write logBytes buff).buff = buff) ∧
    (∀ (sink : Sink) (maxBatchSize : Nat) (batch : List Record) (r : Record),
      (send sink maxBatchSize buff).submitted = some batch → r ∈ batch → r ∈ buff) := by
  refine ⟨?_, ?_, ?_, ?_⟩
  · unfold write; split <;> rfl
  · unfold write; split <;> rfl
  · intro h; unfold write; rw [if_pos h]
  · intro sink maxBatchSize batch r hsub hr
    exact drainCandidate_mem ((send_submitted_perm hsub).subset hr)

/-- C5: when the `PutRecordBatch` call itself errors, the flush reports zero
records delivered, the buffer afterwards is the undrained remainder followed
by every record of the submitted batch, `Write` and `Close` surface no error,
and once the sink recovers a flush that fits delivers that whole buffer. -/
theorem c5_transport_failure_requeues_all (sink : Sink) (maxBatchSize : Nat)
    (buff : List Record) (hne : buff ≠ [])
    (htr : ∀ b : List Record, sink b = PutResult.transportError) :
    ∃ batch : List Record,
      (send sink maxBatchSize buff).submitted = some batch ∧
      (send sink maxBatchSize buff).sent = 0 ∧
      (send sink maxBatchSize buff).buff =
        buff.drop (drainCandidate maxBatchSize buff).length ++ batch ∧
      batch.Perm (drainCandidate maxBatchSize buff) ∧
      (∀ (logBytes : List Nat) (b2 : List Record), (write logBytes b2).err = none) ∧
      (∀ (fuel : Nat) (s : MState) (p : MState × Option String),
        closeStream sink maxBatchSize fuel s = some p → p.2 = none) ∧
      ((send sink maxBatchSize buff).buff ≠ [] →
        (send sink maxBatchSize buff).buff.length ≤ maxBatchSize →
        intSum (send sink maxBatchSize buff).buff ≤ (MAX_RECORDS_BYTE_LENGTH : Int) →
        send successSink maxBatchSize (send sink maxBatchSize buff).buff =
          ⟨[], (((send sink maxBatchSize buff).buff).length : Int),
            some ((send sink maxBatchSize buff).buff)⟩) := by
  obtain ⟨l, hperm, heq⟩ := send_master sink maxBatchSize buff hne
  rw [htr l] at heq
  refine ⟨l, ?_, ?_, ?_, hperm, ?_, ?_, ?_⟩
  · rw [heq]
  · rw [heq]
  · rw [heq]
  · intro logBytes b2; unfold write; split <;> rfl
  · exact fun fuel s p h => closeStream_err_none sink maxBatchSize fuel s p h
  · intro h1 h2 h3
    exact send_success_all maxBatchSize _ h1 h2 h3

/-- Witness for `c5_transport_failure_requeues_all`: one buffered record,
a sink that always errors at transport level. -/
theorem c5_transport_witness :
    ∃ batch : List Record,
      (send transportSink 500 [recA]).submitted = some batch ∧
      (send transportSink 500 [recA]).sent = 0 ∧
      (send transportSink 500 [recA]).buff =
        [recA].drop (drainCandidate 500 [recA]).length ++ batch ∧
      batch.Perm (drainCandidate 500 [recA]) ∧
      (∀ (logBytes : List Nat) (b2 : List Record), (write logBytes b2).err = none) ∧
      (∀ (fuel : Nat) (s : MState) (p : MState × Option String),
        closeStream transportSink 500 fuel s = some p → p.2 = none) ∧
      ((send transportSink 500 [recA]).buff ≠ [] →
        (send transportSink 500 [recA]).buff.length ≤ 500 →
        intSum (send transportSink 500 [recA]).buff ≤ (MAX_RECORDS_BYTE_LENGTH : Int) →
        send successSink 500 (send transportSink 500 [recA]).buff =
          ⟨[], (((send transportSink 500 [recA]).buff).length : Int),
            some ((send transportSink 500 [recA]).buff)⟩) :=
  c5_transport_failure_requeues_all transportSink 500 [recA] (by simp)
    (fun _ => rfl)

end GnLogger

namespace GnLogger

/-- C2 counterexample: with `maxBatchSize = 1` and buffer `[recA, recB]`, a
transport-failed flush of `[recA]` leaves the buffer `[recB, recA]`: the
requeued record is appended at the back, not placed at the front of the
buffer. -/
theorem c2_requeue_front_counterexample :
    (send transportSink 1 [recA, recB]).buff = [recB, recA] ∧
    (send transportSink 1 [recA, recB]).buff ≠ [recA, recB] := by
  decide

/-- C2 (amended): records requeued after a transport-failed delivery are
appended at the back of the buffer — behind the records that remained beyond
the drained batch, but still ahead of every record written after the failed
flush, since later accepted writes append behind them. -/
theorem c2_requeue_before_later_writes (sink : Sink)
    (maxBatchSize : Nat) (buff : List Record) (logBytes : List Nat)
    (hne : buff ≠ [])
    (htr : ∀ b : List Record, sink b = PutResult.transportError)
    (hsz : logBytes.length ≤ MAX_LOG_BYTE_LENGTH) :
    ∃ batch : List Record,
      (send sink maxBatchSize buff).submitted = some batch ∧
      batch.Perm (drainCandidate maxBatchSize buff) ∧
      (send sink maxBatchSize buff).buff =
        buff.drop (drainCandidate maxBatchSize buff).length ++ batch ∧
      (write logBytes (send sink maxBatchSize buff).buff).buff =
        (buff.drop (drainCandidate maxBatchSize buff).length ++ batch) ++
          [⟨logBytes⟩] := by
  obtain ⟨l, hperm, heq⟩ := send_master sink maxBatchSize buff hne
  rw [htr l] at heq
  refine ⟨l, ?_, hperm, ?_, ?_⟩
  · rw [heq]
  · rw [heq]
  · rw [heq]
    unfold write
    rw [if_neg (by omega)]

/-- Witness for `c2_requeue_before_later_writes` at `maxBatchSize = 1`,
buffer `[recA, recB]`, and a later one-byte write. -/
theorem c2_requeue_witness :
    ∃ batch : List Record,
      (send transportSink 1 [recA, recB]).submitted = some batch ∧
      batch.Perm (drainCandidate 1 [recA, recB]) ∧
      (send transportSink 1 [recA, recB]).buff =
        [recA, recB].drop (drainCandidate 1 [recA, recB]).length ++ batch ∧
      (write [2] (send transportSink 1 [recA, recB]).buff).buff =
        ([recA, recB].drop (drainCandidate 1 [recA, recB]).length ++ batch) ++
          [⟨[2]⟩] :=
  c2_requeue_before_later_writes transportSink 1 [recA, recB] [2]
    (by simp) (fun _ => rfl) (by decide)

/-- C6: when the sink accepts the batch but marks some records failed
(`FailedPutCount` consistent with the per-record outcome list), exactly the
failed records — in their original relative order — are appended back to the
buffer, the rest are discarded, and the flush returns the number of records
that succeeded. -/
theorem c6_partial_failure_requeues_exactly_failures (sink : Sink)
    (maxBatchSize : Nat) (buff : List Record) (failedPutCount : Nat)
    (responses : List Bool) (hne : buff ≠ [])
    (hfit : intSum (drainCandidate maxBatchSize buff) ≤ (MAX_RECORDS_BYTE_LENGTH : Int))
    (hsink : sink (drainCandidate maxBatchSize buff) =
      PutResult.ok failedPutCount responses)
    (hlen : responses.length = (drainCandidate maxBatchSize buff).length)
    (hcount : failedPutCount = (responses.filter fun b => b).length)
    (hpos : failedPutCount ≠ 0) :
    send sink maxBatchSize buff =
      ⟨buff.drop (drainCandidate maxBatchSize buff).length ++
          failedOf (drainCandidate maxBatchSize buff) responses,
        ((drainCandidate maxBatchSize buff).length : Int) - (failedPutCount : Int),
        some (drainCandidate maxBatchSize buff)⟩ ∧
    ((drainCandidate maxBatchSize buff).length : Int) - (failedPutCount : Int) =
      ((responses.filter fun b => !b).length : Int) := by
  have hfits : trimLoop ((drainCandidate maxBatchSize buff).length + 1)
      (drainCandidate maxBatchSize buff) (intSum (drainCandidate maxBatchSize buff)) =
      some (TrimResult.fits (drainCandidate maxBatchSize buff)) := by
    rw [trimLoop_succ, if_pos hfit]
  have hlen0 : ¬ buff.length = 0 := fun h => hne (List.length_eq_zero.mp h)
  constructor
  · unfold send
    rw [if_neg hlen0]
    simp only [hfits, hsink]
    rw [if_neg hpos]
  · have hsplit : ∀ rs : List Bool,
        (rs.filter fun b => b).length + (rs.filter fun b => !b).length = rs.length := by
      intro rs
      induction rs with
      | nil => rfl
      | cons a t ih => cases a <;> simp [List.filter_cons] <;> omega
    have h2 := hsplit responses
    omega

/-- Witness for `c6_partial_failure_requeues_exactly_failures`: a batch of
two records of which the sink marks exactly the second failed; an otherwise
empty buffer ends up holding exactly that record, and the flush returns 1. -/
theorem c6_partial_witness :
    send (fun _ => PutResult.ok 1 [false, true]) 500 [recA, recB] =
      ⟨[recB], 1, some [recA, recB]⟩ := by
  have h := c6_partial_failure_requeues_exactly_failures
      (fun _ => PutResult.ok 1 [false, true]) 500 [recA, recB] 1 [false, true]
      (by simp) (by decide) rfl (by decide) (by decide) (by decide)
  rw [h.1]
  decide

/-- Valid level names map to levels of at most 16 (= `levelCritical`, the
largest level `getSlogLevel` can return). -/
theorem getSlogLevel_le (s : String) (v : Int) (h : getSlogLevel s = Except.ok v) :
    v ≤ 16 := by
  unfold getSlogLevel at h
  split at h <;>
    first
    | exact Except.noConfusion h
    | (injection h with h2; subst h2; decide)

/-- C10 counterexample: a logger constructed with level "fatal" has minimum
level 16, so a `Log` call at level "critical" (mapped to level 12) is
suppressed by the handler's level filter — it emits no record at all, in
particular none labelled "FATAL". -/
theorem c10_fatal_suppresses_critical :
    newLogger "fatal" = Except.ok ⟨16⟩ ∧
    logCall ⟨16⟩ "critical" = Except.ok none ∧
    (Except.ok none : Except String (Option String)) ≠ Except.ok (some "FATAL") := by
  refine ⟨rfl, rfl, ?_⟩
  intro h
  injection h with h2
  exact Option.noConfusion h2

/-- C10 (amended): `getSlogLevel` maps "critical" to level 12 (labelled
"FATAL") and "fatal" to level 16 (labelled "CRITICAL"); every constructed
logger emits a "CRITICAL"-labelled record for a `Log` call at "fatal", and
emits a "FATAL"-labelled record for a `Log` call at "critical" provided its
configured minimum level does not exceed 12 — a logger constructed with
level "fatal" (minimum 16) suppresses such a call instead. -/
theorem c10_level_names_swapped :
    (getSlogLevel "critical" = Except.ok 12 ∧ levelLabel 12 = "FATAL" ∧
     getSlogLevel "fatal" = Except.ok 16 ∧ levelLabel 16 = "CRITICAL") ∧
    ∀ (optLevel : String) (lg : Logger), newLogger optLevel = Except.ok lg →
      (logCall lg "fatal" = Except.ok (some "CRITICAL") ∧
       (lg.minLevel ≤ 12 → logCall lg "critical" = Except.ok (some "FATAL"))) := by
  refine ⟨⟨rfl, rfl, rfl, rfl⟩, ?_⟩
  intro optLevel lg h
  have hv : getSlogLevel optLevel = Except.ok lg.minLevel := by
    unfold newLogger at h
    cases hg : getSlogLevel optLevel with
    | error e => rw [hg] at h; exact Except.noConfusion h
    | ok v =>
        rw [hg] at h
        simp only [Except.map] at h
        injection h with h2
        rw [← h2]
  have h16 : lg.minLevel ≤ 16 := getSlogLevel_le optLevel lg.minLevel hv
  constructor
  · unfold logCall
    rw [show getSlogLevel "fatal" = Except.ok levelCritical from rfl]
    simp only [Except.map]
    rw [if_pos (show lg.minLevel ≤ levelCritical from h16)]
    rfl
  · intro h12
    unfold logCall
    rw [show getSlogLevel "critical" = Except.ok levelFatal from rfl]
    simp only [Except.map]
    rw [if_pos (show lg.minLevel ≤ levelFatal from h12)]
    rfl

end GnLogger
